import Mathlib

/-!
Shallow embedding of the structured error model of `src/src-tauri/src/error.rs`
from the event_viz repository.

Strings are modelled as `List Char`; the byte indices used by the Rust code
(`str::find`, `String::replace_range`) become character indices here.  The two
coincide on ASCII text, and all markers and separator characters involved are
ASCII, so span arithmetic is faithful.  `SystemTime::now()` is modelled by an
explicit clock argument `now : Nat` supplied at construction.  Rust's
`HashMap<String, String>` context is modelled as an association list whose
insert overwrites the entry for an existing key in place and appends otherwise;
the counter maps of `ErrorMetrics` are modelled as functions into `Option Nat`
(`none` = key absent from the map).
-/

/-- Categories of errors (error.rs lines 14-24). -/
inductive ErrorCategory
  | Network
  | Validation
  | FileSystem
  | Database
  | System
  | Cache
  | Processing
  | Unknown
  deriving DecidableEq, Repr

/-- Severity levels (error.rs lines 26-33). -/
inductive ErrorSeverity
  | Debug
  | Info
  | Warning
  | Error
  | Critical
  deriving DecidableEq, Repr

/-- Boolean test that the first list is a prefix of the second
(the comparison underlying Rust `str::find` with a string pattern). -/
def isPrefixList : List Char → List Char → Bool
  | [], _ => true
  | _ :: _, [] => false
  | a :: as, b :: bs => a = b && isPrefixList as bs

/-- Index of the first occurrence of `pat` in `s`, as in Rust `str::find`
with a `&str` pattern (an empty pattern matches at index 0). -/
def findSublist (pat : List Char) (s : List Char) : Option Nat :=
  if isPrefixList pat s then some 0
  else
    match s with
    | [] => none
    | _ :: t => (findSublist pat t).map (· + 1)

/-- Boolean containment of `pat` in `s`, as in Rust `str::contains`. -/
def containsSub (pat s : List Char) : Bool :=
  (findSublist pat s).isSome

/-- `pat` occurs somewhere inside `s` (propositional form of substring
containment, used to state the claims). -/
def occursIn (pat s : List Char) : Prop :=
  ∃ pre post, s = pre ++ pat ++ post

/-- ASCII fragment of Rust `char::is_whitespace` (the separator characters
relevant to the sanitizer are all ASCII). -/
def rustIsWhitespace (c : Char) : Bool :=
  c = ' ' || c = '\t' || c = '\n' || c = '\x0b' || c = '\x0c' || c = '\r'

/-- The value-terminator test of `sanitized_message` (error.rs line 149):
whitespace, comma or semicolon. -/
def isStopChar (c : Char) : Bool :=
  rustIsWhitespace c || c = ',' || c = ';'

/-- Index of the first stop character, as in `str::find` with a char
predicate (error.rs line 149). -/
def findStop : List Char → Option Nat
  | [] => none
  | c :: t => if isStopChar c then some 0 else (findStop t).map (· + 1)

/-- Rust `String::replace_range(start..stop, r)` at character level. -/
def replaceRange (s : List Char) (start stop : Nat) (r : List Char) : List Char :=
  s.take start ++ r ++ s.drop stop

/-- The literal replacement `"***"`. -/
def stars : List Char := ['*', '*', '*']

/-- The replacement closure of the first `replace` call of
`sanitized_message` (error.rs lines 136-141): applied to each matched
substring `s`, it yields `"***"` when `s` contains a credential word and
`s` itself otherwise. -/
def stage1Subst (s : List Char) : List Char :=
  if containsSub "password".toList s || containsSub "api_key".toList s
      || containsSub "secret".toList s then stars
  else s

/-- The first `replace` pass of `sanitized_message` (error.rs lines 134-142):
every character equal to `=` or `:` is a match of the char-predicate
pattern, and each match (a one-character substring) is rewritten by the
replacement closure. -/
def stage1 : List Char → List Char
  | [] => []
  | c :: t => (if c = '=' || c = ':' then stage1Subst [c] else [c]) ++ stage1 t

/-- The ordered marker list of `sanitized_message` (error.rs line 145). -/
def sensitivePatterns : List (List Char) :=
  ["password=".toList, "api_key=".toList, "secret=".toList, "token=".toList]

/-- One iteration of the marker loop of `sanitized_message`
(error.rs lines 146-156). -/
def sanitizeStep (s : List Char) (pat : List Char) : List Char :=
  match findSublist pat s with
  | none => s
  | some idx =>
    let start := idx + pat.length
    match findStop (s.drop start) with
    | some e => replaceRange s start (start + e) stars
    | none => s.take start ++ stars

/-- `AppError::sanitized_message` on the raw message text
(error.rs lines 131-158): the char-predicate replace pass followed by the
marker loop over the four sensitive patterns. -/
def sanitizedMessage (msg : List Char) : List Char :=
  sensitivePatterns.foldl sanitizeStep (stage1 msg)

/-- Lowercasing of the message, as `str::to_lowercase` restricted to the
ASCII letters the classification keywords consist of. -/
def toLowerMsg (s : List Char) : List Char := s.map Char.toLower

/-- `AppError::categorize_message` (error.rs lines 166-179). -/
def categorize_message (m : List Char) : ErrorCategory :=
  let lower := toLowerMsg m
  if containsSub "network".toList lower || containsSub "connection".toList lower
      || containsSub "timeout".toList lower then .Network
  else if containsSub "invalid".toList lower || containsSub "validation".toList lower
      || containsSub "required".toList lower then .Validation
  else if containsSub "file".toList lower || containsSub "not found".toList lower then
    .FileSystem
  else if containsSub "database".toList lower then .Database
  else .Unknown

/-- `AppError::assess_severity` (error.rs lines 181-192). -/
def assess_severity (m : List Char) : ErrorSeverity :=
  let lower := toLowerMsg m
  if containsSub "crash".toList lower || containsSub "critical".toList lower then .Critical
  else if containsSub "deprecated".toList lower || containsSub "warning".toList lower then
    .Warning
  else if containsSub "completed".toList lower || containsSub "minor".toList lower then
    .Info
  else .Error

/-- The error value (error.rs lines 35-44). -/
structure AppError where
  message : List Char
  category : ErrorCategory
  severity : ErrorSeverity
  context : List (List Char × List Char)
  timestamp : Nat
  deriving DecidableEq, Repr

/-- `AppError::new` (error.rs lines 68-76); `now` models `SystemTime::now()`. -/
def AppError.new (message : List Char) (category : ErrorCategory)
    (severity : ErrorSeverity) (now : Nat) : AppError :=
  ⟨message, category, severity, [], now⟩

/-- `AppError::from_message` (error.rs lines 78-82). -/
def AppError.from_message (message : List Char) (now : Nat) : AppError :=
  AppError.new message (categorize_message message) (assess_severity message) now

/-- Insert with overwrite, the behaviour of `HashMap::insert` on the
association-list model of the context map. -/
def ctxInsert (k v : List Char) :
    List (List Char × List Char) → List (List Char × List Char)
  | [] => [(k, v)]
  | (k', v') :: t => if k' = k then (k, v) :: t else (k', v') :: ctxInsert k v t

/-- Lookup in the context map, the behaviour of `HashMap::get`. -/
def ctxGet (k : List Char) : List (List Char × List Char) → Option (List Char)
  | [] => none
  | (k', v') :: t => if k' = k then some v' else ctxGet k t

/-- `AppError::with_context` (error.rs lines 88-91): inserts/overwrites one
context entry and returns the (updated) value itself. -/
def AppError.with_context (e : AppError) (k v : List Char) : AppError :=
  { e with context := ctxInsert k v e.context }

/-- `AppError::sanitized_message` lifted to the error value. -/
def AppError.sanitized_message (e : AppError) : List Char :=
  sanitizedMessage e.message

/-- `AppError::recovery_suggestions` (error.rs lines 113-125). -/
def AppError.recovery_suggestions (e : AppError) : List (List Char) :=
  match e.category with
  | .Network => ["Retry the operation".toList, "Check network connectivity".toList]
  | .Validation => ["Validate input format".toList, "Check field requirements".toList]
  | _ => []

/-- `AppError::error_chain` (error.rs lines 127-129). -/
def AppError.error_chain (e : AppError) : List (List Char) :=
  [e.message]

/-- The default serialized representation of `AppError`: `category` and
`severity` carry `#[serde(skip)]` (error.rs lines 38-41), so serde emits
exactly the `message`, `context` and `timestamp` fields. -/
def serializedForm (e : AppError) :
    List Char × List (List Char × List Char) × Nat :=
  (e.message, e.context, e.timestamp)

/-- The metrics aggregator (error.rs lines 195-199); the two hash maps are
modelled as functions into `Option Nat`, `none` meaning the key is absent. -/
structure ErrorMetrics where
  total_errors : Nat
  errors_by_category : ErrorCategory → Option Nat
  errors_by_severity : ErrorSeverity → Option Nat

/-- `ErrorMetrics::new` (error.rs lines 202-208). -/
def ErrorMetrics.new : ErrorMetrics :=
  ⟨0, fun _ => none, fun _ => none⟩

/-- `ErrorMetrics::record_error` (error.rs lines 210-214):
`entry(k).or_insert(0) += 1` on both maps, plus the total counter. -/
def ErrorMetrics.record_error (m : ErrorMetrics) (e : AppError) : ErrorMetrics :=
  { total_errors := m.total_errors + 1
    errors_by_category := fun c =>
      if c = e.category then some ((m.errors_by_category c).getD 0 + 1)
      else m.errors_by_category c
    errors_by_severity := fun s =>
      if s = e.severity then some ((m.errors_by_severity s).getD 0 + 1)
      else m.errors_by_severity s }

/-- The snapshot value (error.rs lines 225-229). -/
structure ErrorStats where
  total_errors : Nat
  errors_by_category : ErrorCategory → Option Nat
  errors_by_severity : ErrorSeverity → Option Nat

/-- `ErrorMetrics::get_stats` (error.rs lines 216-222): in the Rust code the
three counters are deep-cloned into the snapshot; in this pure embedding the
snapshot is a value built from the aggregator value at call time. -/
def ErrorMetrics.get_stats (m : ErrorMetrics) : ErrorStats :=
  ⟨m.total_errors, m.errors_by_category, m.errors_by_severity⟩

/-- Recording a whole sequence of errors in order. -/
def recordAll (m : ErrorMetrics) (es : List AppError) : ErrorMetrics :=
  es.foldl ErrorMetrics.record_error m

/-- Count recorded for a category, reading an absent entry as 0. -/
def catCount (m : ErrorMetrics) (c : ErrorCategory) : Nat :=
  (m.errors_by_category c).getD 0

/-- Count recorded for a severity, reading an absent entry as 0. -/
def sevCount (m : ErrorMetrics) (s : ErrorSeverity) : Nat :=
  (m.errors_by_severity s).getD 0

/-- All eight categories, for summing the category map. -/
def allCategories : List ErrorCategory :=
  [.Network, .Validation, .FileSystem, .Database, .System, .Cache, .Processing, .Unknown]

/-- All five severities, for summing the severity map. -/
def allSeverities : List ErrorSeverity :=
  [.Debug, .Info, .Warning, .Error, .Critical]

/-- Sum of all per-category counts. -/
def catTotal (m : ErrorMetrics) : Nat :=
  (allCategories.map (fun c => catCount m c)).sum

/-- Sum of all per-severity counts. -/
def sevTotal (m : ErrorMetrics) : Nat :=
  (allSeverities.map (fun s => sevCount m s)).sum

/-- The aggregator consistency invariant of claim C10. -/
def MetricsInv (m : ErrorMetrics) : Prop :=
  m.total_errors = catTotal m ∧ m.total_errors = sevTotal m ∧
    (∀ c n, m.errors_by_category c = some n → 0 < n) ∧
    (∀ s n, m.errors_by_severity s = some n → 0 < n)

/-- The marker `pat` occurs in `msg` at index `i` (claim-side notion of "an
occurrence of a matched marker"). -/
def markerAt (pat msg : List Char) (i : Nat) : Prop :=
  isPrefixList pat (msg.drop i) = true

/-- The value substring that follows position `start` of `msg`, delimited by
the sanitizer's stop characters (claim-side notion of "the value that
followed a marker"). -/
def valueAfter (msg : List Char) (start : Nat) : List Char :=
  match findStop (msg.drop start) with
  | some e => (msg.drop start).take e
  | none => msg.drop start

/-- `replace_range` with the bounds check made explicit: Rust panics when the
range end exceeds the string length or the bounds are inverted; the checked
model returns `none` exactly there. -/
def replaceRangeChecked (s : List Char) (start stop : Nat) (r : List Char) :
    Option (List Char) :=
  if start ≤ stop ∧ stop ≤ s.length then some (replaceRange s start stop r) else none

/-- One marker-loop iteration with every `replace_range` bounds check made
explicit (`none` = the Rust code would panic). -/
def sanitizeStepChecked (s pat : List Char) : Option (List Char) :=
  match findSublist pat s with
  | none => some s
  | some idx =>
    let start := idx + pat.length
    match findStop (s.drop start) with
    | some e => replaceRangeChecked s start (start + e) stars
    | none => if start ≤ s.length then some (s.take start ++ stars) else none

/-- The marker loop over a list of patterns, propagating a potential panic. -/
def sanitizeAllChecked : List Char → List (List Char) → Option (List Char)
  | s, [] => some s
  | s, p :: t =>
    match sanitizeStepChecked s p with
    | none => none
    | some s2 => sanitizeAllChecked s2 t

/-- `sanitized_message` with all panic-capable span operations checked. -/
def sanitizedMessageChecked (msg : List Char) : Option (List Char) :=
  sanitizeAllChecked (stage1 msg) sensitivePatterns

/-! ### Basic lemmas about the string primitives -/

lemma findSublist_singleton (a b : Char) (rest : List Char) (c : Char) :
    findSublist (a :: b :: rest) [c] = none := by
  simp [findSublist, isPrefixList]

lemma stage1Subst_singleton (c : Char) : stage1Subst [c] = [c] := by
  simp [stage1Subst, containsSub, findSublist_singleton]

/-- The first `replace` pass is the identity: each match of the
char-predicate pattern is a one-character substring, and a one-character
string never contains an eight-character credential word. -/
lemma stage1_eq_id : ∀ s : List Char, stage1 s = s
  | [] => rfl
  | c :: t => by simp [stage1, stage1Subst_singleton, stage1_eq_id t]

lemma isPrefixList_self_append : ∀ pat r : List Char, isPrefixList pat (pat ++ r) = true
  | [], _ => rfl
  | a :: as, r => by simp [isPrefixList, isPrefixList_self_append as r]

lemma isPrefixList_length : ∀ pat s : List Char,
    isPrefixList pat s = true → pat.length ≤ s.length
  | [], s, _ => Nat.zero_le _
  | a :: as, [], h => by simp [isPrefixList] at h
  | a :: as, b :: bs, h => by
    simp only [isPrefixList, Bool.and_eq_true] at h
    exact Nat.succ_le_succ (isPrefixList_length as bs h.2)

lemma isPrefixList_exists : ∀ pat s : List Char,
    isPrefixList pat s = true → ∃ r, s = pat ++ r
  | [], s, _ => ⟨s, rfl⟩
  | a :: as, [], h => by simp [isPrefixList] at h
  | a :: as, b :: bs, h => by
    simp only [isPrefixList, Bool.and_eq_true, decide_eq_true_eq] at h
    obtain ⟨r, hr⟩ := isPrefixList_exists as bs h.2
    exact ⟨r, by simp [hr, h.1]⟩

lemma findSublist_some_drop : ∀ (pat s : List Char) (i : Nat),
    findSublist pat s = some i → isPrefixList pat (s.drop i) = true
  | pat, s, i, h => by
    rw [findSublist.eq_def] at h
    by_cases hp : isPrefixList pat s = true
    · rw [if_pos hp] at h
      obtain rfl : i = 0 := by injection h with h'; omega
      simpa using hp
    · rw [if_neg hp] at h
      match s, h with
      | c :: t, h =>
        simp only [Option.map_eq_some'] at h
        obtain ⟨j, hj, rfl⟩ := h
        simpa using findSublist_some_drop pat t j hj

lemma findSublist_some_le : ∀ (pat s : List Char) (i : Nat),
    findSublist pat s = some i → i + pat.length ≤ s.length
  | pat, s, i, h => by
    rw [findSublist.eq_def] at h
    by_cases hp : isPrefixList pat s = true
    · rw [if_pos hp] at h
      obtain rfl : i = 0 := by injection h with h'; omega
      simpa using isPrefixList_length pat s hp
    · rw [if_neg hp] at h
      match s, h with
      | c :: t, h =>
        simp only [Option.map_eq_some'] at h
        obtain ⟨j, hj, rfl⟩ := h
        have := findSublist_some_le pat t j hj
        simp only [List.length_cons]
        omega

lemma occursIn_of_findSublist {pat s : List Char} {i : Nat}
    (h : findSublist pat s = some i) : occursIn pat s := by
  obtain ⟨r, hr⟩ := isPrefixList_exists _ _ (findSublist_some_drop pat s i h)
  exact ⟨s.take i, r, by
    conv_lhs => rw [← List.take_append_drop i s]
    rw [hr, List.append_assoc]⟩

lemma findSublist_isSome_append : ∀ (pre pat post : List Char),
    (findSublist pat (pre ++ pat ++ post)).isSome = true
  | [], pat, post => by
    rw [findSublist.eq_def]
    simp [isPrefixList_self_append]
  | a :: pre, pat, post => by
    rw [findSublist.eq_def]
    by_cases hp : isPrefixList pat ((a :: pre) ++ pat ++ post) = true
    · rw [if_pos hp]
      rfl
    · rw [if_neg hp]
      show (Option.map (· + 1) (findSublist pat (pre ++ pat ++ post))).isSome = true
      rw [Option.isSome_map']
      exact findSublist_isSome_append pre pat post

lemma containsSub_iff (pat s : List Char) :
    containsSub pat s = true ↔ occursIn pat s := by
  constructor
  · intro h
    obtain ⟨i, hi⟩ := Option.isSome_iff_exists.mp h
    exact occursIn_of_findSublist hi
  · rintro ⟨pre, post, rfl⟩
    exact findSublist_isSome_append pre pat post

lemma containsSub_false_iff (pat s : List Char) :
    containsSub pat s = false ↔ ¬ occursIn pat s := by
  rw [← containsSub_iff pat s]
  cases containsSub pat s <;> simp

lemma findStop_some_lt : ∀ (l : List Char) (e : Nat),
    findStop l = some e → e < l.length
  | [], e, h => by simp [findStop] at h
  | c :: t, e, h => by
    rw [findStop] at h
    by_cases hc : isStopChar c = true
    · rw [if_pos hc] at h
      obtain rfl : e = 0 := by injection h with h'; omega
      simp
    · rw [if_neg hc] at h
      simp only [Option.map_eq_some'] at h
      obtain ⟨j, hj, rfl⟩ := h
      have := findStop_some_lt t j hj
      simp only [List.length_cons]
      omega

/-! ### Lemmas about the marker loop -/

lemma sanitizeStep_of_none {s pat : List Char} (h : findSublist pat s = none) :
    sanitizeStep s pat = s := by
  unfold sanitizeStep
  rw [h]

lemma sanitizeStep_of_some_some {s pat : List Char} {idx e : Nat}
    (h : findSublist pat s = some idx)
    (hf : findStop (s.drop (idx + pat.length)) = some e) :
    sanitizeStep s pat
      = s.take (idx + pat.length) ++ stars ++ s.drop (idx + pat.length + e) := by
  unfold sanitizeStep
  rw [h]
  show (match findStop (s.drop (idx + pat.length)) with
    | some e => replaceRange s (idx + pat.length) (idx + pat.length + e) stars
    | none => s.take (idx + pat.length) ++ stars) = _
  rw [hf]
  rfl

lemma sanitizeStep_of_some_none {s pat : List Char} {idx : Nat}
    (h : findSublist pat s = some idx)
    (hf : findStop (s.drop (idx + pat.length)) = none) :
    sanitizeStep s pat = s.take (idx + pat.length) ++ stars := by
  unfold sanitizeStep
  rw [h]
  show (match findStop (s.drop (idx + pat.length)) with
    | some e => replaceRange s (idx + pat.length) (idx + pat.length + e) stars
    | none => s.take (idx + pat.length) ++ stars) = _
  rw [hf]

lemma occursIn_stars_of_fires {s pat : List Char} {idx : Nat}
    (h : findSublist pat s = some idx) :
    occursIn stars (sanitizeStep s pat) := by
  cases hf : findStop (s.drop (idx + pat.length)) with
  | none =>
    rw [sanitizeStep_of_some_none h hf]
    exact ⟨s.take (idx + pat.length), [], by simp⟩
  | some e =>
    rw [sanitizeStep_of_some_some h hf]
    exact ⟨s.take (idx + pat.length), s.drop (idx + pat.length + e), rfl⟩

lemma occursIn_stars_sanitizeStep {s pat : List Char}
    (h : occursIn stars s) : occursIn stars (sanitizeStep s pat) := by
  cases hf : findSublist pat s with
  | none => rw [sanitizeStep_of_none hf]; exact h
  | some idx => exact occursIn_stars_of_fires hf

lemma occursIn_stars_foldl : ∀ (l : List (List Char)) (s : List Char),
    occursIn stars s → occursIn stars (l.foldl sanitizeStep s)
  | [], _, h => h
  | _ :: t, _, h => occursIn_stars_foldl t _ (occursIn_stars_sanitizeStep h)

lemma foldl_stars_of_mem : ∀ (l : List (List Char)) (s pat : List Char),
    pat ∈ l → occursIn pat s → occursIn stars (l.foldl sanitizeStep s)
  | [], _, pat, hmem, _ => absurd hmem (List.not_mem_nil pat)
  | p :: t, s, pat, hmem, hocc => by
    rcases List.mem_cons.mp hmem with rfl | hmem'
    · have hs : (findSublist pat s).isSome = true := by
        obtain ⟨pre, post, rfl⟩ := hocc
        exact findSublist_isSome_append pre pat post
      obtain ⟨idx, hidx⟩ := Option.isSome_iff_exists.mp hs
      exact occursIn_stars_foldl t _ (occursIn_stars_of_fires hidx)
    · cases hf : findSublist p s with
      | none =>
        rw [List.foldl_cons, sanitizeStep_of_none hf]
        exact foldl_stars_of_mem t s pat hmem' hocc
      | some idx =>
        exact occursIn_stars_foldl t _ (occursIn_stars_of_fires hf)

/-! ### Lemmas about the context map and the metrics aggregator -/

lemma ctxGet_insert_self (k v : List Char) :
    ∀ ctx, ctxGet k (ctxInsert k v ctx) = some v
  | [] => by simp [ctxInsert, ctxGet]
  | (k', v') :: t => by
    by_cases h : k' = k
    · simp [ctxInsert, h, ctxGet]
    · simp [ctxInsert, h, ctxGet, ctxGet_insert_self k v t]

lemma ctxGet_insert_ne (k v q : List Char) (hq : q ≠ k) :
    ∀ ctx, ctxGet q (ctxInsert k v ctx) = ctxGet q ctx
  | [] => by simp [ctxInsert, ctxGet, Ne.symm hq]
  | (k', v') :: t => by
    by_cases h : k' = k
    · subst h
      simp [ctxInsert, ctxGet, Ne.symm hq]
    · by_cases h2 : k' = q
      · subst h2
        simp [ctxInsert, ctxGet, h, hq]
      · simp [ctxInsert, ctxGet, h, h2, ctxGet_insert_ne k v q hq t]

lemma catCount_record (m : ErrorMetrics) (e : AppError) (c : ErrorCategory) :
    catCount (m.record_error e) c
      = if c = e.category then catCount m c + 1 else catCount m c := by
  by_cases h : c = e.category <;> simp [catCount, ErrorMetrics.record_error, h]

lemma sevCount_record (m : ErrorMetrics) (e : AppError) (s : ErrorSeverity) :
    sevCount (m.record_error e) s
      = if s = e.severity then sevCount m s + 1 else sevCount m s := by
  by_cases h : s = e.severity <;> simp [sevCount, ErrorMetrics.record_error, h]

lemma sev_record_self (m : ErrorMetrics) (e : AppError) :
    (m.record_error e).errors_by_severity e.severity
      = some (sevCount m e.severity + 1) := by
  simp [ErrorMetrics.record_error, sevCount]

lemma total_recordAll : ∀ (es : List AppError) (m : ErrorMetrics),
    (recordAll m es).total_errors = m.total_errors + es.length
  | [], _ => rfl
  | e :: t, m => by
    show (recordAll (m.record_error e) t).total_errors = _
    rw [total_recordAll t]
    simp [ErrorMetrics.record_error]
    omega

lemma catCount_recordAll : ∀ (es : List AppError) (m : ErrorMetrics) (c : ErrorCategory),
    catCount (recordAll m es) c
      = catCount m c + es.countP (fun e => decide (e.category = c))
  | [], _, _ => by simp [recordAll]
  | e :: t, m, c => by
    show catCount (recordAll (m.record_error e) t) c = _
    rw [catCount_recordAll t, catCount_record]
    simp only [List.countP_cons]
    by_cases h : c = e.category
    · have hd : decide (e.category = c) = true := decide_eq_true h.symm
      simp only [if_pos h, hd, if_true]
      omega
    · have hd : decide (e.category = c) = false :=
        decide_eq_false (fun hh => h hh.symm)
      simp only [if_neg h, hd, Bool.false_eq_true, if_false]
      omega

lemma sum_map_ite {α : Type} [DecidableEq α] (f : α → Nat) (c0 : α) :
    ∀ l : List α,
      (l.map (fun c => if c = c0 then f c + 1 else f c)).sum
        = (l.map f).sum + l.countP (fun c => decide (c = c0))
  | [] => rfl
  | a :: t => by
    by_cases h : a = c0 <;>
      simp [List.countP_cons, h, sum_map_ite f c0 t] <;> omega

lemma catTotal_record (m : ErrorMetrics) (e : AppError) :
    catTotal (m.record_error e) = catTotal m + 1 := by
  unfold catTotal
  rw [List.map_congr_left (fun c _ => catCount_record m e c),
    sum_map_ite (fun c => catCount m c) e.category allCategories]
  have hone : allCategories.countP (fun c => decide (c = e.category)) = 1 := by
    cases e.category <;> decide
  rw [hone]

lemma sevTotal_record (m : ErrorMetrics) (e : AppError) :
    sevTotal (m.record_error e) = sevTotal m + 1 := by
  unfold sevTotal
  rw [List.map_congr_left (fun s _ => sevCount_record m e s),
    sum_map_ite (fun s => sevCount m s) e.severity allSeverities]
  have hone : allSeverities.countP (fun s => decide (s = e.severity)) = 1 := by
    cases e.severity <;> decide
  rw [hone]

lemma metricsInv_new : MetricsInv ErrorMetrics.new := by
  refine ⟨rfl, rfl, ?_, ?_⟩
  · intro c n h
    simp [ErrorMetrics.new] at h
  · intro s n h
    simp [ErrorMetrics.new] at h

lemma metricsInv_record (m : ErrorMetrics) (e : AppError) (h : MetricsInv m) :
    MetricsInv (m.record_error e) := by
  obtain ⟨h1, h2, h3, h4⟩ := h
  refine ⟨?_, ?_, ?_, ?_⟩
  · rw [catTotal_record]
    show m.total_errors + 1 = catTotal m + 1
    omega
  · rw [sevTotal_record]
    show m.total_errors + 1 = sevTotal m + 1
    omega
  · intro c n hc
    by_cases hce : c = e.category
    · simp [ErrorMetrics.record_error, hce] at hc
      omega
    · simp [ErrorMetrics.record_error, hce] at hc
      exact h3 c n hc
  · intro s n hs
    by_cases hse : s = e.severity
    · simp [ErrorMetrics.record_error, hse] at hs
      omega
    · simp [ErrorMetrics.record_error, hse] at hs
      exact h4 s n hs

lemma metricsInv_recordAll : ∀ (es : List AppError) (m : ErrorMetrics),
    MetricsInv m → MetricsInv (recordAll m es)
  | [], _, h => h
  | e :: t, m, h => metricsInv_recordAll t _ (metricsInv_record m e h)

/-! ### The checked sanitizer never hits a panic path -/

lemma sanitizeStepChecked_eq (s pat : List Char) :
    sanitizeStepChecked s pat = some (sanitizeStep s pat) := by
  cases hf : findSublist pat s with
  | none =>
    rw [sanitizeStep_of_none hf]
    unfold sanitizeStepChecked
    rw [hf]
  | some idx =>
    have hle : idx + pat.length ≤ s.length := findSublist_some_le pat s idx hf
    unfold sanitizeStepChecked
    rw [hf]
    show (match findStop (s.drop (idx + pat.length)) with
      | some e =>
        replaceRangeChecked s (idx + pat.length) (idx + pat.length + e) stars
      | none =>
        if idx + pat.length ≤ s.length
        then some (s.take (idx + pat.length) ++ stars) else none) = _
    cases hs : findStop (s.drop (idx + pat.length)) with
    | none =>
      simp only [hs]
      rw [sanitizeStep_of_some_none hf hs, if_pos hle]
    | some e =>
      have he : e < (s.drop (idx + pat.length)).length := findStop_some_lt _ _ hs
      rw [List.length_drop] at he
      simp only [hs]
      rw [sanitizeStep_of_some_some hf hs]
      unfold replaceRangeChecked
      have hb : idx + pat.length ≤ idx + pat.length + e ∧
          idx + pat.length + e ≤ s.length := by omega
      rw [if_pos hb]
      rfl

lemma sanitizeAllChecked_eq : ∀ (l : List (List Char)) (s : List Char),
    sanitizeAllChecked s l = some (l.foldl sanitizeStep s)
  | [], _ => rfl
  | p :: t, s => by
    show (match sanitizeStepChecked s p with
      | none => none
      | some s2 => sanitizeAllChecked s2 t) = _
    rw [sanitizeStepChecked_eq]
    exact sanitizeAllChecked_eq t (sanitizeStep s p)

/-! ### Claim theorems -/

/-- Claim C1 (counterexample): the claim quantifies over *every* occurrence of
a matched marker, but the marker loop redacts only the first occurrence of
each marker.  In the message `"token=abc token=def"` the marker `token=` also
occurs at index 10, the value following that occurrence is `def`, and the
sanitized output `"token=*** token=def"` still contains that exact value
substring (and carries no `***` at that second occurrence). -/
theorem C1_counterexample :
    markerAt "token=".toList "token=abc token=def".toList 10
    ∧ valueAfter "token=abc token=def".toList 16 = "def".toList
    ∧ sanitizedMessage "token=abc token=def".toList = "token=*** token=def".toList
    ∧ occursIn "def".toList (sanitizedMessage "token=abc token=def".toList) :=
  ⟨by unfold markerAt; decide, by decide, by decide,
    ⟨"token=*** token=".toList, [], by decide⟩⟩

/-- Claim C1 (amended): for every message and every marker in the ordered
list, if the marker occurs in the message then the sanitized output contains
the literal `***`; and each marker's loop iteration replaces exactly the
value span following the *first* occurrence of that marker in the string
being processed (up to the first whitespace/comma/semicolon, or to the end of
the string) with `***`.  Values following later occurrences of the same
marker may survive in the output. -/
theorem C1_sanitizer_amended :
    (∀ msg pat, pat ∈ sensitivePatterns → occursIn pat msg →
      occursIn stars (sanitizedMessage msg))
    ∧ (∀ s pat idx e, findSublist pat s = some idx →
        findStop (s.drop (idx + pat.length)) = some e →
        sanitizeStep s pat
          = s.take (idx + pat.length) ++ stars ++ s.drop (idx + pat.length + e))
    ∧ (∀ s pat idx, findSublist pat s = some idx →
        findStop (s.drop (idx + pat.length)) = none →
        sanitizeStep s pat = s.take (idx + pat.length) ++ stars) := by
  refine ⟨?_, ?_, ?_⟩
  · intro msg pat hm ho
    unfold sanitizedMessage
    rw [stage1_eq_id]
    exact foldl_stars_of_mem sensitivePatterns msg pat hm ho
  · intro s pat idx e h hf
    exact sanitizeStep_of_some_some h hf
  · intro s pat idx h hf
    exact sanitizeStep_of_some_none h hf

/-- Witness for the amended C1 theorem at a concrete input. -/
theorem C1_sanitizer_amended_witness :
    "password=".toList ∈ sensitivePatterns
    ∧ occursIn "password=".toList "password=x".toList
    ∧ occursIn stars (sanitizedMessage "password=x".toList) :=
  ⟨by decide, ⟨[], "x".toList, by decide⟩,
    C1_sanitizer_amended.1 "password=x".toList "password=".toList (by decide)
      ⟨[], "x".toList, by decide⟩⟩

/-- Claim C2: on `"Database connection failed: password=secret123"`,
`from_message` yields a value whose sanitized message is exactly
`"Database connection failed: password=***"` and whose category is `Network`
(the `connection` keyword wins before the `database` check is reached). -/
theorem C2_concrete_scenario :
    (AppError.from_message
        "Database connection failed: password=secret123".toList 0).sanitized_message
      = "Database connection failed: password=***".toList
    ∧ (AppError.from_message
        "Database connection failed: password=secret123".toList 0).category
      = ErrorCategory.Network :=
  ⟨by decide, by decide⟩

lemma containsSub_eq_false_of_not (pat s : List Char) (h : ¬ occursIn pat s) :
    containsSub pat s = false :=
  (containsSub_false_iff pat s).mpr h

/-- Claim C3: category inference is the deterministic first-match-wins chain
Network → Validation → FileSystem → Database → Unknown over case-insensitive
substring containment in the message. -/
theorem C3_categorize_priority (m : List Char) :
    ((occursIn "network".toList (toLowerMsg m) ∨ occursIn "connection".toList (toLowerMsg m)
        ∨ occursIn "timeout".toList (toLowerMsg m)) →
      categorize_message m = ErrorCategory.Network)
    ∧ (¬(occursIn "network".toList (toLowerMsg m) ∨ occursIn "connection".toList (toLowerMsg m)
        ∨ occursIn "timeout".toList (toLowerMsg m)) →
      (occursIn "invalid".toList (toLowerMsg m) ∨ occursIn "validation".toList (toLowerMsg m)
        ∨ occursIn "required".toList (toLowerMsg m)) →
      categorize_message m = ErrorCategory.Validation)
    ∧ (¬(occursIn "network".toList (toLowerMsg m) ∨ occursIn "connection".toList (toLowerMsg m)
        ∨ occursIn "timeout".toList (toLowerMsg m)) →
      ¬(occursIn "invalid".toList (toLowerMsg m) ∨ occursIn "validation".toList (toLowerMsg m)
        ∨ occursIn "required".toList (toLowerMsg m)) →
      (occursIn "file".toList (toLowerMsg m) ∨ occursIn "not found".toList (toLowerMsg m)) →
      categorize_message m = ErrorCategory.FileSystem)
    ∧ (¬(occursIn "network".toList (toLowerMsg m) ∨ occursIn "connection".toList (toLowerMsg m)
        ∨ occursIn "timeout".toList (toLowerMsg m)) →
      ¬(occursIn "invalid".toList (toLowerMsg m) ∨ occursIn "validation".toList (toLowerMsg m)
        ∨ occursIn "required".toList (toLowerMsg m)) →
      ¬(occursIn "file".toList (toLowerMsg m) ∨ occursIn "not found".toList (toLowerMsg m)) →
      occursIn "database".toList (toLowerMsg m) →
      categorize_message m = ErrorCategory.Database)
    ∧ (¬(occursIn "network".toList (toLowerMsg m) ∨ occursIn "connection".toList (toLowerMsg m)
        ∨ occursIn "timeout".toList (toLowerMsg m)) →
      ¬(occursIn "invalid".toList (toLowerMsg m) ∨ occursIn "validation".toList (toLowerMsg m)
        ∨ occursIn "required".toList (toLowerMsg m)) →
      ¬(occursIn "file".toList (toLowerMsg m) ∨ occursIn "not found".toList (toLowerMsg m)) →
      ¬ occursIn "database".toList (toLowerMsg m) →
      categorize_message m = ErrorCategory.Unknown) := by
  refine ⟨?_, ?_, ?_, ?_, ?_⟩
  · intro h
    simp only [categorize_message]
    rcases h with h | h | h <;> rw [(containsSub_iff _ _).mpr h] <;> simp
  · intro hA hB
    have h1 := containsSub_eq_false_of_not _ _ (fun hc => hA (Or.inl hc))
    have h2 := containsSub_eq_false_of_not _ _ (fun hc => hA (Or.inr (Or.inl hc)))
    have h3 := containsSub_eq_false_of_not _ _ (fun hc => hA (Or.inr (Or.inr hc)))
    simp only [categorize_message]
    rw [h1, h2, h3]
    rcases hB with h | h | h <;> rw [(containsSub_iff _ _).mpr h] <;> simp
  · intro hA hB hC
    have h1 := containsSub_eq_false_of_not _ _ (fun hc => hA (Or.inl hc))
    have h2 := containsSub_eq_false_of_not _ _ (fun hc => hA (Or.inr (Or.inl hc)))
    have h3 := containsSub_eq_false_of_not _ _ (fun hc => hA (Or.inr (Or.inr hc)))
    have h4 := containsSub_eq_false_of_not _ _ (fun hc => hB (Or.inl hc))
    have h5 := containsSub_eq_false_of_not _ _ (fun hc => hB (Or.inr (Or.inl hc)))
    have h6 := containsSub_eq_false_of_not _ _ (fun hc => hB (Or.inr (Or.inr hc)))
    simp only [categorize_message]
    rw [h1, h2, h3, h4, h5, h6]
    rcases hC with h | h <;> rw [(containsSub_iff _ _).mpr h] <;> simp
  · intro hA hB hC h
    have h1 := containsSub_eq_false_of_not _ _ (fun hc => hA (Or.inl hc))
    have h2 := containsSub_eq_false_of_not _ _ (fun hc => hA (Or.inr (Or.inl hc)))
    have h3 := containsSub_eq_false_of_not _ _ (fun hc => hA (Or.inr (Or.inr hc)))
    have h4 := containsSub_eq_false_of_not _ _ (fun hc => hB (Or.inl hc))
    have h5 := containsSub_eq_false_of_not _ _ (fun hc => hB (Or.inr (Or.inl hc)))
    have h6 := containsSub_eq_false_of_not _ _ (fun hc => hB (Or.inr (Or.inr hc)))
    have h7 := containsSub_eq_false_of_not _ _ (fun hc => hC (Or.inl hc))
    have h8 := containsSub_eq_false_of_not _ _ (fun hc => hC (Or.inr hc))
    simp only [categorize_message]
    rw [h1, h2, h3, h4, h5, h6, h7, h8, (containsSub_iff _ _).mpr h]
    simp
  · intro hA hB hC hD
    have h1 := containsSub_eq_false_of_not _ _ (fun hc => hA (Or.inl hc))
    have h2 := containsSub_eq_false_of_not _ _ (fun hc => hA (Or.inr (Or.inl hc)))
    have h3 := containsSub_eq_false_of_not _ _ (fun hc => hA (Or.inr (Or.inr hc)))
    have h4 := containsSub_eq_false_of_not _ _ (fun hc => hB (Or.inl hc))
    have h5 := containsSub_eq_false_of_not _ _ (fun hc => hB (Or.inr (Or.inl hc)))
    have h6 := containsSub_eq_false_of_not _ _ (fun hc => hB (Or.inr (Or.inr hc)))
    have h7 := containsSub_eq_false_of_not _ _ (fun hc => hC (Or.inl hc))
    have h8 := containsSub_eq_false_of_not _ _ (fun hc => hC (Or.inr hc))
    have h9 := containsSub_eq_false_of_not _ _ hD
    simp only [categorize_message]
    rw [h1, h2, h3, h4, h5, h6, h7, h8, h9]
    rfl

/-- Witness for C3 at a concrete input. -/
theorem C3_categorize_priority_witness :
    categorize_message "connection lost".toList = ErrorCategory.Network :=
  (C3_categorize_priority "connection lost".toList).1
    (Or.inr (Or.inl ⟨[], " lost".toList, by decide⟩))

/-- Claim C4: severity inference is the first-match-wins chain
Critical → Warning → Info → Error, with Error (never Info or Debug) as the
default when no severity keyword occurs. -/
theorem C4_severity_priority (m : List Char) :
    ((occursIn "crash".toList (toLowerMsg m) ∨ occursIn "critical".toList (toLowerMsg m)) →
      assess_severity m = ErrorSeverity.Critical)
    ∧ (¬(occursIn "crash".toList (toLowerMsg m) ∨ occursIn "critical".toList (toLowerMsg m)) →
      (occursIn "deprecated".toList (toLowerMsg m) ∨ occursIn "warning".toList (toLowerMsg m)) →
      assess_severity m = ErrorSeverity.Warning)
    ∧ (¬(occursIn "crash".toList (toLowerMsg m) ∨ occursIn "critical".toList (toLowerMsg m)) →
      ¬(occursIn "deprecated".toList (toLowerMsg m) ∨ occursIn "warning".toList (toLowerMsg m)) →
      (occursIn "completed".toList (toLowerMsg m) ∨ occursIn "minor".toList (toLowerMsg m)) →
      assess_severity m = ErrorSeverity.Info)
    ∧ (¬(occursIn "crash".toList (toLowerMsg m) ∨ occursIn "critical".toList (toLowerMsg m)) →
      ¬(occursIn "deprecated".toList (toLowerMsg m) ∨ occursIn "warning".toList (toLowerMsg m)) →
      ¬(occursIn "completed".toList (toLowerMsg m) ∨ occursIn "minor".toList (toLowerMsg m)) →
      assess_severity m = ErrorSeverity.Error) := by
  refine ⟨?_, ?_, ?_, ?_⟩
  · intro h
    simp only [assess_severity]
    rcases h with h | h <;> rw [(containsSub_iff _ _).mpr h] <;> simp
  · intro hA hB
    have h1 := containsSub_eq_false_of_not _ _ (fun hc => hA (Or.inl hc))
    have h2 := containsSub_eq_false_of_not _ _ (fun hc => hA (Or.inr hc))
    simp only [assess_severity]
    rw [h1, h2]
    rcases hB with h | h <;> rw [(containsSub_iff _ _).mpr h] <;> simp
  · intro hA hB hC
    have h1 := containsSub_eq_false_of_not _ _ (fun hc => hA (Or.inl hc))
    have h2 := containsSub_eq_false_of_not _ _ (fun hc => hA (Or.inr hc))
    have h3 := containsSub_eq_false_of_not _ _ (fun hc => hB (Or.inl hc))
    have h4 := containsSub_eq_false_of_not _ _ (fun hc => hB (Or.inr hc))
    simp only [assess_severity]
    rw [h1, h2, h3, h4]
    rcases hC with h | h <;> rw [(containsSub_iff _ _).mpr h] <;> simp
  · intro hA hB hC
    have h1 := containsSub_eq_false_of_not _ _ (fun hc => hA (Or.inl hc))
    have h2 := containsSub_eq_false_of_not _ _ (fun hc => hA (Or.inr hc))
    have h3 := containsSub_eq_false_of_not _ _ (fun hc => hB (Or.inl hc))
    have h4 := containsSub_eq_false_of_not _ _ (fun hc => hB (Or.inr hc))
    have h5 := containsSub_eq_false_of_not _ _ (fun hc => hC (Or.inl hc))
    have h6 := containsSub_eq_false_of_not _ _ (fun hc => hC (Or.inr hc))
    simp only [assess_severity]
    rw [h1, h2, h3, h4, h5, h6]
    rfl

/-- Witness for C4 at a concrete input. -/
theorem C4_severity_priority_witness :
    assess_severity "System crash imminent".toList = ErrorSeverity.Critical :=
  (C4_severity_priority "System crash imminent".toList).1
    (Or.inl ⟨"system ".toList, " imminent".toList, by decide⟩)

/-- Claim C5: `with_context` sets exactly the given key (overwriting), leaves
every other context entry and the `message`, `category`, `severity` and
`timestamp` fields unchanged, and the result is the same value with only the
context updated (`with_context` being the only operation that modifies a
constructed value at all in error.rs). -/
theorem C5_with_context (e : AppError) (k v : List Char) :
    ctxGet k (e.with_context k v).context = some v
    ∧ (∀ q, q ≠ k → ctxGet q (e.with_context k v).context = ctxGet q e.context)
    ∧ (e.with_context k v).message = e.message
    ∧ (e.with_context k v).category = e.category
    ∧ (e.with_context k v).severity = e.severity
    ∧ (e.with_context k v).timestamp = e.timestamp :=
  ⟨ctxGet_insert_self k v e.context,
    fun q hq => ctxGet_insert_ne k v q hq e.context,
    rfl, rfl, rfl, rfl⟩

/-- Witness for C5 at a concrete input. -/
theorem C5_with_context_witness :
    "user_id".toList ≠ "operation".toList
    ∧ ctxGet "user_id".toList
        ((AppError.new "Test error".toList ErrorCategory.System
            ErrorSeverity.Error 0).with_context "operation".toList "t".toList).context
      = ctxGet "user_id".toList
          (AppError.new "Test error".toList ErrorCategory.System
            ErrorSeverity.Error 0).context :=
  ⟨by decide,
    (C5_with_context
        (AppError.new "Test error".toList ErrorCategory.System ErrorSeverity.Error 0)
        "operation".toList "t".toList).2.1 "user_id".toList (by decide)⟩

/-- Claim C6: over any call sequence, the Network bucket grows by exactly the
number of Network-category errors recorded, the total grows by the number of
calls (so N Network calls contribute exactly N to both, independent of
interleaving), and each single `record_error` sets the severity bucket of the
recorded error to its previous value (0 if unseen) plus one.  `record_error`
consumes the error value read-only: the embedding maps the metrics state and
the untouched error value to the new metrics state. -/
theorem C6_record_error_counts (m : ErrorMetrics) (es : List AppError) :
    catCount (recordAll m es) ErrorCategory.Network
      = catCount m ErrorCategory.Network
        + es.countP (fun e => decide (e.category = ErrorCategory.Network))
    ∧ (recordAll m es).total_errors = m.total_errors + es.length
    ∧ (∀ e, (m.record_error e).errors_by_severity e.severity
        = some (sevCount m e.severity + 1)) :=
  ⟨catCount_recordAll es m ErrorCategory.Network, total_recordAll es m,
    fun e => sev_record_self m e⟩

/-- Claim C7: `get_stats` is a copy of the three counters at call time; a
later `record_error` produces a new aggregator state whose snapshot differs,
while the snapshot of the earlier state is a fixed value (value semantics:
in the embedding, as in the Rust code's `.clone()`, the snapshot shares no
mutable state with the aggregator). -/
theorem C7_get_stats_snapshot (m : ErrorMetrics) (e : AppError) :
    m.get_stats
      = ErrorStats.mk m.total_errors m.errors_by_category m.errors_by_severity
    ∧ ((m.record_error e).get_stats).total_errors
      = m.get_stats.total_errors + 1 :=
  ⟨rfl, rfl⟩

/-- Claim C8: every operation of the error value is total; in particular the
sanitizer's span replacements never panic: the checked sanitizer, in which
every `replace_range` bounds condition is explicit, returns `some` of the
unchecked result on every message. -/
theorem C8_sanitizer_total (msg : List Char) :
    sanitizedMessageChecked msg = some (sanitizedMessage msg) := by
  unfold sanitizedMessageChecked sanitizedMessage
  exact sanitizeAllChecked_eq sensitivePatterns (stage1 msg)

/-- Claim C9: the default serialized form (message, context, timestamp;
`category` and `severity` are `#[serde(skip)]`) is identical for any two
values agreeing on those three fields, whatever their category/severity. -/
theorem C9_serialized_skip (e1 e2 : AppError) (hm : e1.message = e2.message)
    (hc : e1.context = e2.context) (ht : e1.timestamp = e2.timestamp) :
    serializedForm e1 = serializedForm e2 := by
  simp [serializedForm, hm, hc, ht]

/-- Witness for C9: two values differing only in category and severity
serialize identically. -/
theorem C9_serialized_skip_witness :
    (AppError.new "m".toList ErrorCategory.Network ErrorSeverity.Critical 7).category
      ≠ (AppError.new "m".toList ErrorCategory.Database ErrorSeverity.Info 7).category
    ∧ (AppError.new "m".toList ErrorCategory.Network ErrorSeverity.Critical 7).severity
      ≠ (AppError.new "m".toList ErrorCategory.Database ErrorSeverity.Info 7).severity
    ∧ serializedForm (AppError.new "m".toList ErrorCategory.Network ErrorSeverity.Critical 7)
      = serializedForm (AppError.new "m".toList ErrorCategory.Database ErrorSeverity.Info 7) :=
  ⟨by decide, by decide,
    C9_serialized_skip
      (AppError.new "m".toList ErrorCategory.Network ErrorSeverity.Critical 7)
      (AppError.new "m".toList ErrorCategory.Database ErrorSeverity.Info 7)
      rfl rfl rfl⟩

/-- Claim C10: starting from `ErrorMetrics::new`, after any sequence of
`record_error` calls the total equals the sum of the category counts and the
sum of the severity counts, and every count present in either map is
strictly positive. -/
theorem C10_metrics_invariant (es : List AppError) :
    MetricsInv (recordAll ErrorMetrics.new es) :=
  metricsInv_recordAll es ErrorMetrics.new metricsInv_new

/-- Witness for C10 at a concrete call sequence. -/
theorem C10_metrics_invariant_witness :
    (recordAll ErrorMetrics.new
        [AppError.from_message "network down".toList 0]).errors_by_category
      ErrorCategory.Network = some 1
    ∧ 0 < 1 :=
  ⟨rfl,
    (C10_metrics_invariant [AppError.from_message "network down".toList 0]).2.2.1
      ErrorCategory.Network 1 rfl⟩
